import Mathlib

/-!
Verification development for the rocm-kpack runtime library
(archive reader, kernel cache, process-memory path discovery).

The definitions below are shallow embeddings of the C++ sources under
`runtime/src/`: files are byte lists, machine integers are `Nat` with
explicit bounds where overflow matters, fallible operations return
`Except KError`, and mutation of the archive handle is explicit state
passing.  Each definition names the source function it embeds.
-/

set_option autoImplicit false

deriving instance DecidableEq for Except

namespace KPack

/-- Error codes from `rocm_kpack/kpack_types.h` (`kpack_error_t`) together
with the loader-specific codes declared in the spec (INVALID_METADATA,
ARCHIVE_NOT_FOUND, ARCH_NOT_FOUND, PATH_DISCOVERY_FAILED). -/
inductive KError where
  | invalidArgument
  | fileNotFound
  | invalidFormat
  | unsupportedVersion
  | kernelNotFound
  | decompressionFailed
  | outOfMemory
  | notImplemented
  | ioError
  | msgpackParseFailed
  | invalidMetadata
  | archiveNotFound
  | archNotFound
  | pathDiscoveryFailed
  deriving DecidableEq, Repr

/-- Little-endian 32-bit value from four bytes (as `memcpy` into `uint32_t`
on a little-endian machine does in `archive.cpp`). -/
def le32 (b0 b1 b2 b3 : Nat) : Nat :=
  b0 + 256 * b1 + 256 ^ 2 * b2 + 256 ^ 3 * b3

/-- Little-endian 64-bit value read from a byte list at a given index
(missing bytes read as 0; callers establish the length bound). -/
def le64At (bs : List Nat) (i : Nat) : Nat :=
  (List.range 8).foldl (fun acc k => acc + 256 ^ k * bs.getD (i + k) 0) 0

/-- Little-endian 32-bit value read from a byte list at a given index. -/
def le32At (bs : List Nat) (i : Nat) : Nat :=
  le32 (bs.getD i 0) (bs.getD (i + 1) 0) (bs.getD (i + 2) 0) (bs.getD (i + 3) 0)

/-- The 4 magic bytes KPAK (`KPACK_MAGIC` in `kpack_types.h`). -/
def kpackMagicBytes : List Nat := [0x4B, 0x50, 0x41, 0x4B]

/-- Model of `fread(header, 1, 16, file)` at file position 0:
`delivered` is the byte count the call returns.  On a successful read
`delivered = min 16 f.length`; an underlying I/O failure surfaces as a
short count (`delivered < 16`), which is all the caller can observe. -/
def fread16 (f : List Nat) (delivered : Nat) : List Nat :=
  f.take (min delivered 16)

/-- Embedding of `validate_header` (`archive.cpp` lines 11-39) applied to
the bytes the initial `fread` delivered.  The C code checks the count of
`fread`, the magic, then the little-endian version field; on success it
yields `(version, toc_offset)`. -/
def validate_header (header : List Nat) : Except KError (Nat × Nat) :=
  if header.length ≠ 16 then .error .invalidFormat
  else if header.take 4 ≠ kpackMagicBytes then .error .invalidFormat
  else
    let ver := le32At header 4
    if ver ≠ 1 then .error .unsupportedVersion
    else .ok (ver, le64At header 8)

/-- Decoded MessagePack objects, as `msgpack::object` presents them to
`toc_parser.cpp` (only the type distinctions the parser inspects). -/
inductive MP where
  | int (n : Nat)
  | nint (n : Nat)
  | boolean (b : Bool)
  | str (s : String)
  | bin (bs : List Nat)
  | arr (xs : List MP)
  | map (kvs : List (MP × MP))
  | nil

/-- True exactly for `msgpack::type::MAP` objects. -/
def MP.isMap : MP → Bool
  | .map _ => true
  | _ => false

/-- True exactly for `msgpack::type::ARRAY` objects. -/
def MP.isArr : MP → Bool
  | .arr _ => true
  | _ => false

/-- True exactly for `msgpack::type::STR` objects. -/
def MP.isStr : MP → Bool
  | .str _ => true
  | _ => false

/-- Embedding of the `find_key` helper of `toc_parser.cpp`: first entry
whose key is a string equal to `key`. -/
def find_key (kvs : List (MP × MP)) (key : String) : Option MP :=
  match kvs with
  | [] => none
  | (k, v) :: rest =>
    match k with
    | .str s => if s = key then some v else find_key rest key
    | _ => find_key rest key

/-- Model of `msgpack::object::as<uint64_t>()`: succeeds on a
non-negative integer object, throws `msgpack::type_error` (the `.error`
case) on every other type. -/
def mpAsU64 : MP → Except Unit Nat
  | .int n => .ok n
  | _ => .error ()

/-- Model of `msgpack::object::as<uint32_t>()`: as `mpAsU64` but the
conversion also throws when the value does not fit in 32 bits. -/
def mpAsU32 : MP → Except Unit Nat
  | .int n => if n < 2 ^ 32 then .ok n else .error ()
  | _ => .error ()

/-- Compression schemes (`kpack_compression_scheme_t`). -/
inductive Scheme where
  | noop
  | zstdPerKernel
  deriving DecidableEq, Repr

/-- Blob metadata for the `none` scheme (`BlobInfo` in `kpack_internal.h`). -/
structure BlobInfo where
  offset : Nat
  size : Nat
  deriving DecidableEq, Repr

/-- Frame metadata for the zstd scheme (`FrameInfo` in `kpack_internal.h`). -/
structure FrameInfo where
  offset_in_blob : Nat
  compressed_size : Nat
  deriving DecidableEq, Repr

/-- Per-kernel TOC metadata (`KernelMetadata` in `kpack_internal.h`).
The defaults model the zero state of the fields that `parse_toc` leaves
untouched when a sub-key is absent; no theorem below rests on that
corner of the C code (where the local is formally indeterminate). -/
structure KernelMetadata where
  type : String := ""
  ordinal : Nat := 0
  original_size : Nat := 0
  deriving DecidableEq, Repr

/-- The archive fields populated by `parse_toc`. -/
structure TocData where
  compression_scheme : Scheme
  gfx_arches : List String
  blobs : List BlobInfo
  zstd_offset : Nat
  zstd_size : Nat
  toc : List (String × List (String × KernelMetadata))
  deriving DecidableEq, Repr

/-- Association list insert-or-overwrite, the effect of `std::map`
`operator[]` assignment.  (A `std::map` iterates in key order while this
list keeps first-insertion order; every claim below depends only on
lookups, which agree.) -/
def assocPut {α β : Type} [DecidableEq α] : List (α × β) → α → β → List (α × β)
  | [], k, v => [(k, v)]
  | (k0, v0) :: rest, k, v =>
    if k0 = k then (k0, v) :: rest else (k0, v0) :: assocPut rest k v

/-- Association list lookup, the effect of `std::map::find`. -/
def assocFind {α β : Type} [DecidableEq α] : List (α × β) → α → Option β
  | [], _ => none
  | (k0, v0) :: rest, k => if k0 = k then some v0 else assocFind rest k

/-- Outcome of `parse_toc`: populated fields, an error code, or an
uncaught `msgpack::type_error` escaping the function (the C code wraps
only `msgpack::unpack` in try/catch; the later `as<...>()` calls are
unprotected). -/
inductive ParseOutcome where
  | ok (td : TocData)
  | err (e : KError)
  | exn
  deriving DecidableEq, Repr

/-- The `gfx_arches` extraction of `parse_toc`: string elements of an
array value; any other shape is treated as absent. -/
def parseArches (v : Option MP) : List String :=
  match v with
  | some (.arr xs) =>
    xs.filterMap (fun e =>
      match e with
      | .str s => some s
      | _ => none)
  | _ => []

/-- The `blobs` extraction of `parse_toc` (lines 83-99): map elements of
the array contribute one `BlobInfo` each, with `offset` / `size` read
via `as<uint64_t>` (which can throw); non-map elements are skipped and a
non-array or missing `blobs` value contributes nothing. -/
def parseBlobs (v : Option MP) : Except Unit (List BlobInfo) :=
  match v with
  | some (.arr xs) =>
    xs.foldlM (fun acc e =>
      match e with
      | .map kvs => do
        let off ← match find_key kvs ("offset") with
          | none => pure 0
          | some o => mpAsU64 o
        let sz ← match find_key kvs ("size") with
          | none => pure 0
          | some o => mpAsU64 o
        pure (acc ++ [BlobInfo.mk off sz])
      | _ => pure acc) []
  | _ => .ok []

/-- One kernel metadata map of the nested TOC (lines 126-141). -/
def parseKernelMeta (kvs : List (MP × MP)) : Except Unit KernelMetadata := do
  let ord ← match find_key kvs ("ordinal") with
    | none => pure 0
    | some o => mpAsU32 o
  let osz ← match find_key kvs ("original_size") with
    | none => pure 0
    | some o => mpAsU64 o
  let ty := match find_key kvs ("type") with
    | some (.str s) => s
    | _ => ""
  pure (KernelMetadata.mk ty ord osz)

/-- Write `toc[binary][arch] = km` (`std::map` `operator[]` chains). -/
def tocPut (t : List (String × List (String × KernelMetadata)))
    (binary arch : String) (km : KernelMetadata) :
    List (String × List (String × KernelMetadata)) :=
  assocPut t binary (assocPut ((assocFind t binary).getD []) arch km)

/-- The nested `toc` walk of `parse_toc` (lines 109-145): binary-path
keys and architecture keys must be strings, kernel metadata must be a
map; everything else is skipped. -/
def parseTocMap (v : Option MP) :
    Except Unit (List (String × List (String × KernelMetadata))) :=
  match v with
  | some (.map tocMap) =>
    tocMap.foldlM (fun acc bkv =>
      match bkv with
      | (.str binaryPath, .map archMap) =>
        archMap.foldlM (fun acc2 akv =>
          match akv with
          | (.str arch, .map metaMap) => do
            let km ← parseKernelMeta metaMap
            pure (tocPut acc2 binaryPath arch km)
          | _ => pure acc2) acc
      | _ => pure acc) []
  | _ => .ok []

/-- The `compression_scheme` extraction of `parse_toc` (lines 60-69): a
string value selects the scheme; a missing key, a non-string value or an
unknown scheme name all leave the zero-initialized default, which is
`KPACK_COMPRESSION_NOOP`. -/
def schemeOf (kvs : List (MP × MP)) : Scheme :=
  match find_key kvs ("compression_scheme") with
  | some (.str s) =>
    if s = "none" then .noop
    else if s = "zstd-per-kernel" then .zstdPerKernel
    else .noop
  | _ => .noop

/-- Exception propagation of the field extractions of `parse_toc`, in
source order: the first `as<...>()` type error escapes the function
(`.exn`); otherwise the archive fields are populated and the function
returns success. -/
def combineToc (scheme : Scheme) (arches : List String)
    (blobsRes : Except Unit (List BlobInfo)) (zoffRes zszRes : Except Unit Nat)
    (tocRes : Except Unit (List (String × List (String × KernelMetadata)))) :
    ParseOutcome :=
  match blobsRes with
  | .error _ => .exn
  | .ok blobs =>
    match zoffRes with
    | .error _ => .exn
    | .ok zoff =>
      match zszRes with
      | .error _ => .exn
      | .ok zsz =>
        match tocRes with
        | .error _ => .exn
        | .ok toc => .ok (TocData.mk scheme arches blobs zoff zsz toc)

/-- Embedding of the body of `parse_toc` (`toc_parser.cpp` lines 53-147)
applied to the decoded MessagePack root.  A non-map root is rejected
with `MSGPACK_PARSE_FAILED`; afterwards the fields are extracted in
source order (scheme, arches, blobs for `none`, zstd fields for
`zstd-per-kernel`, nested toc), and any `as<...>()` type error escapes
as an exception. -/
def parse_toc_root (root : MP) : ParseOutcome :=
  match root with
  | .map kvs =>
    combineToc (schemeOf kvs) (parseArches (find_key kvs ("gfx_arches")))
      (if schemeOf kvs = Scheme.noop then parseBlobs (find_key kvs ("blobs"))
        else .ok [])
      (if schemeOf kvs = Scheme.zstdPerKernel then
          match find_key kvs ("zstd_offset") with
          | none => .ok 0
          | some v => mpAsU64 v
        else .ok 0)
      (if schemeOf kvs = Scheme.zstdPerKernel then
          match find_key kvs ("zstd_size") with
          | none => .ok 0
          | some v => mpAsU64 v
        else .ok 0)
      (parseTocMap (find_key kvs ("toc")))
  | _ => .err .msgpackParseFailed

/-- Embedding of the whole of `parse_toc` (lines 26-148): bounds check
on `toc_offset`, read of the remaining bytes (for a regular file a read
below end-of-file delivers in full), `msgpack::unpack` (modelled by the
`unpack` parameter, `none` meaning the decoder threw), then the root
walk. -/
def parse_toc (f : List Nat) (toc_offset : Nat)
    (unpack : List Nat → Option MP) : ParseOutcome :=
  if toc_offset ≥ f.length then .err .invalidFormat
  else
    match unpack (f.drop toc_offset) with
    | none => .err .msgpackParseFailed
    | some root => parse_toc_root root

/-- The archive handle (`struct kpack_archive` in `kpack_internal.h`),
with the opened file's bytes standing in for the `FILE*`.  `kernel_cache`
is the single shared buffer that `decompress_noop` / `decompress_zstd`
overwrite and whose data pointer `kpack_get_kernel` hands back. -/
structure Archive where
  file : List Nat
  compression_scheme : Scheme
  gfx_arches : List String
  toc : List (String × List (String × KernelMetadata))
  blobs : List BlobInfo
  zstd_offset : Nat
  zstd_size : Nat
  zstd_blob : List Nat
  zstd_frames : List FrameInfo
  kernel_cache : List Nat
  deriving DecidableEq, Repr

/-- Embedding of `decompress_noop` (`compression.cpp` lines 10-34):
unknown ordinal is `KERNEL_NOT_FOUND`; otherwise the blob's bytes are
read from the file into `kernel_cache`, a short read (the blob range
exceeding the file) being `IO_ERROR`.  As in the C code the
`expected_size` parameter is accepted and ignored. -/
def decompress_noop (a : Archive) (ordinal expected_size : Nat) :
    Except KError Archive :=
  if ordinal < a.blobs.length then
    let blob := a.blobs.getD ordinal (BlobInfo.mk 0 0)
    let data := (a.file.drop blob.offset).take blob.size
    if data.length ≠ blob.size then .error .ioError
    else .ok { a with kernel_cache := data }
  else
    let _ := expected_size
    .error .kernelNotFound

/-- Embedding of `decompress_zstd` (`compression.cpp` lines 117-146).
`zd` models `ZSTD_decompressDCtx` restricted to the given capacity: it
receives the compressed frame bytes and the destination capacity
(`expected_size`) and returns the produced bytes, or `none` for a Zstd
error.  A produced size different from `expected_size` is also
`DECOMPRESSION_FAILED`. -/
def decompress_zstd (zd : List Nat → Nat → Option (List Nat))
    (a : Archive) (ordinal expected_size : Nat) : Except KError Archive :=
  if ordinal < a.zstd_frames.length then
    let frame := a.zstd_frames.getD ordinal (FrameInfo.mk 0 0)
    let compressed := (a.zstd_blob.drop frame.offset_in_blob).take frame.compressed_size
    match zd compressed expected_size with
    | none => .error .decompressionFailed
    | some res =>
      if res.length ≠ expected_size then .error .decompressionFailed
      else .ok { a with kernel_cache := res }
  else .error .kernelNotFound

/-- Embedding of `kpack_get_kernel` (`kpack.cpp` lines 57-95) for
non-null arguments.  The TOC lookup dispatches to the scheme's
decompressor; on success the C code sets `*kernel_data =
archive->kernel_cache.data()` and `*kernel_size = kernel_cache.size()`
(lines 92-93), so the returned bytes are exactly the updated handle's
`kernel_cache` — the caller's pointer aliases that archive-owned buffer. -/
def kpack_get_kernel (zd : List Nat → Nat → Option (List Nat))
    (a : Archive) (binary_name arch : String) :
    Except KError (Archive × List Nat × Nat) :=
  match assocFind a.toc binary_name with
  | none => .error .kernelNotFound
  | some archMap =>
    match assocFind archMap arch with
    | none => .error .kernelNotFound
    | some km =>
      let res :=
        match a.compression_scheme with
        | .noop => decompress_noop a km.ordinal km.original_size
        | .zstdPerKernel => decompress_zstd zd a km.ordinal km.original_size
      match res with
      | .error e => .error e
      | .ok a2 => .ok (a2, a2.kernel_cache, a2.kernel_cache.length)

/-- The frame-header walk of `build_zstd_frame_index` (`compression.cpp`
lines 83-106): starting right after the 4-byte count, each frame
contributes a 4-byte little-endian length prefix and that many payload
bytes, both bounds-checked against the blob end; `none` is the
`INVALID_FORMAT` outcome of a bounds violation. -/
def parseFrames (blob : List Nat) :
    Nat → Nat → List FrameInfo → Option (List FrameInfo)
  | 0, _, acc => some acc.reverse
  | count + 1, pos, acc =>
    if pos + 4 > blob.length then none
    else
      let frame_size := le32At blob pos
      if pos + 4 + frame_size > blob.length then none
      else
        parseFrames blob count (pos + 4 + frame_size)
          (FrameInfo.mk (pos + 4) frame_size :: acc)

/-- Embedding of `build_zstd_frame_index` (`compression.cpp` lines
36-115): reject a blob larger than 4 GiB, read `zstd_size` bytes from
`zstd_offset` (a short read is `IO_ERROR`), require at least the 4-byte
count, bound the kernel count by 1,048,576, then walk the frame
headers.  (The terminal `ZSTD_createDCtx` allocation is elided: its only
failure mode is out-of-memory.) -/
def build_zstd_frame_index (a : Archive) : Except KError Archive :=
  if a.zstd_size > 4 * 1024 * 1024 * 1024 then .error .invalidFormat
  else
    let blob := (a.file.drop a.zstd_offset).take a.zstd_size
    if blob.length ≠ a.zstd_size then .error .ioError
    else if a.zstd_size < 4 then .error .invalidFormat
    else
      let num_kernels := le32At blob 0
      if num_kernels > 1024 * 1024 then .error .invalidFormat
      else
        match parseFrames blob num_kernels 4 [] with
        | none => .error .invalidFormat
        | some frames => .ok { a with zstd_blob := blob, zstd_frames := frames }

/-- True iff a POSIX path is absolute (`fs::path::is_absolute`): the
path begins with the separator. -/
def isAbsolutePath (s : String) : Bool :=
  match s.toList with
  | c :: _ => c = '/'
  | [] => false

/-- Embedding of `fs::path::parent_path`: the path up to (excluding) the
last separator; a root-only result keeps its slash; no separator gives
the empty path. -/
def parentPath (s : String) : String :=
  let cs := s.toList
  match cs.reverse.findIdx? (fun c => c = '/') with
  | none => ""
  | some rIdx =>
    let i := cs.length - 1 - rIdx
    if i = 0 then ("/") else String.mk (cs.take i)

/-- True iff the path ends with the separator. -/
def endsWithSlash (s : String) : Bool :=
  match s.toList.getLast? with
  | some c => c = '/'
  | none => false

/-- Embedding of `fs::path::operator/` for a non-absolute right side. -/
def joinPath (dir rel : String) : String :=
  if dir = "" then rel
  else if endsWithSlash dir then dir ++ rel
  else dir ++ ("/") ++ rel

/-- Embedding of `resolve_path` (`loader.cpp` lines 129-153): an
absolute candidate is returned unchanged; otherwise it is joined to the
directory of `base_path` and weakly canonicalized.  `wc` models
`fs::weakly_canonical`, with `none` for a thrown filesystem error, in
which case the catch-all returns the original `relative_path`. -/
def resolve_path (wc : String → Option String)
    (base_path relative_path : String) : String :=
  if isAbsolutePath relative_path then relative_path
  else
    match wc (joinPath (parentPath base_path) relative_path) with
    | some s => s
    | none => relative_path

/-- The cache handle (`struct kpack_cache` in `kpack_internal.h`).
`env_path_prefix_list` embeds the `env_path_prefix` field (the parsed
`ROCM_KPACK_PATH_PREFIX` list); `archive_archs` keeps each cached
archive's architecture set as the list whose membership the search
consults (the C `std::set` deduplicates and sorts, which changes neither
membership nor any claim below). -/
structure CacheState where
  env_path_override : List String
  env_path_prefix_list : List String
  disabled : Bool
  debug : Bool
  archives : List (String × Archive)
  archive_archs : List (String × List String)
  deriving DecidableEq, Repr

/-- The filesystem collaborators of `kpack_load_code_object`:
`weaklyCanon` and `canon` model `fs::weakly_canonical` /
`fs::canonical` with `none` for a thrown error; `exists_file` models the
`file_exists` helper; `openArchive` models what `kpack_open` returns for
the file currently at a path. -/
structure FS where
  weaklyCanon : String → Option String
  canon : String → Option String
  exists_file : String → Bool
  openArchive : String → Except KError Archive

/-- Embedding of `get_canonical_path` (`loader.cpp` lines 167-175):
best-effort canonicalization, falling back to the raw path. -/
def get_canonical_path (fs : FS) (path : String) : String :=
  (fs.canon path).getD path

/-- Embedding of the effective search-path construction of
`kpack_load_code_object` (`loader.cpp` lines 276-299): a non-empty
override list is used exclusively; otherwise the prefix list is
inserted first and each embedded path is resolved against
`binary_path` and appended. -/
def buildSearchPaths (cache : CacheState) (wc : String → Option String)
    (binary_path : String) (embedded : List String) : List String :=
  if cache.env_path_override ≠ [] then cache.env_path_override
  else
    let sp : List String := []
    let sp := if cache.env_path_prefix_list ≠ [] then sp ++ cache.env_path_prefix_list else sp
    embedded.foldl (fun acc rel => acc ++ [resolve_path wc binary_path rel]) sp

/-- One iteration of the archive-opening walk of `kpack_load_code_object`
(`loader.cpp` lines 307-348): reuse a cached handle, silently skip a
missing file, open and cache an existing one recording its architecture
set — and on an open failure log (when debug) and skip, leaving both the
cache and the valid-path list untouched. -/
def cacheWalkStep (fs : FS) (st : CacheState × List String) (path : String) :
    CacheState × List String :=
  let cache := st.1
  let valid := st.2
  let canonical := get_canonical_path fs path
  if (assocFind cache.archives canonical).isSome then (cache, valid ++ [canonical])
  else if fs.exists_file path = false then (cache, valid)
  else
    match fs.openArchive path with
    | .error _ => (cache, valid)
    | .ok ar =>
      ({ cache with
          archives := assocPut cache.archives canonical ar,
          archive_archs := assocPut cache.archive_archs canonical ar.gfx_arches },
        valid ++ [canonical])

/-- The whole path walk (fold of `cacheWalkStep` over the effective
search paths, starting from an empty valid-path list). -/
def cacheWalk (fs : FS) (cache : CacheState) (paths : List String) :
    CacheState × List String :=
  paths.foldl (cacheWalkStep fs) (cache, [])

/-- The inner archive scan of the arch-first search (`loader.cpp` lines
372-394): the first valid path whose recorded architecture set contains
`arch` and whose handle is present selects that handle (`break`); paths
not claiming the arch are passed over. -/
def selectArchive (cache : CacheState) (valid : List String) (arch : String) :
    Option Archive :=
  match valid with
  | [] => none
  | p :: rest =>
    match assocFind cache.archive_archs p with
    | none => selectArchive cache rest arch
    | some archs =>
      if arch ∈ archs then
        match assocFind cache.archives p with
        | some ar => some ar
        | none => selectArchive cache rest arch
      else selectArchive cache rest arch

/-- The arch-first search loop of `kpack_load_code_object` (`loader.cpp`
lines 362-413): for each architecture in caller order (a `none` entry
embeds a null `arch_list[i]`, which line 364 skips), select the first
archive claiming it and fetch; success returns, `KERNEL_NOT_FOUND`
advances to the next architecture, any other fetch error propagates. -/
def archesSearch (zd : List Nat → Nat → Option (List Nat))
    (cache : CacheState) (valid : List String) (kernel_name : String) :
    List (Option String) → Except KError (List Nat × Nat)
  | [] => .error .archNotFound
  | none :: rest => archesSearch zd cache valid kernel_name rest
  | some arch :: rest =>
    match selectArchive cache valid arch with
    | none => archesSearch zd cache valid kernel_name rest
    | some ar =>
      match kpack_get_kernel zd ar kernel_name arch with
      | .ok (_, d, n) => .ok (d, n)
      | .error .kernelNotFound => archesSearch zd cache valid kernel_name rest
      | .error e => .error e

/-- Embedding of `kpack_load_code_object` (`loader.cpp` lines 240-427)
from the point where the HIPK metadata has been decoded into
`kernel_name` and `embedded_search_paths` (its argument-null validation
and `parse_hipk_metadata` precede this): disabled check, effective-path
construction, archive walk, `ARCHIVE_NOT_FOUND` when the walk yields no
valid archive, then the arch-first search. -/
def kpack_load_code_object_core (zd : List Nat → Nat → Option (List Nat))
    (fs : FS) (cache : CacheState) (kernel_name : String)
    (embedded_search_paths : List String) (binary_path : String)
    (arch_list : List (Option String)) : Except KError (List Nat × Nat) :=
  if cache.disabled then .error .notImplemented
  else
    let search_paths := buildSearchPaths cache fs.weaklyCanon binary_path embedded_search_paths
    let ws := cacheWalk fs cache search_paths
    if ws.2 = [] then .error .archiveNotFound
    else archesSearch zd ws.1 ws.2 kernel_name arch_list

/-- Whitespace in the default locale, as `std::stoull` skips it. -/
def isSpaceC (c : Char) : Bool :=
  c = ' ' || c = '\t' || c = '\n' || c = '\x0b' || c = '\x0c' || c = '\r'

/-- Value of one hexadecimal digit. -/
def hexVal (c : Char) : Option Nat :=
  if '0' ≤ c ∧ c ≤ '9' then some (c.toNat - 48)
  else if 'a' ≤ c ∧ c ≤ 'f' then some (c.toNat - 87)
  else if 'A' ≤ c ∧ c ≤ 'F' then some (c.toNat - 55)
  else none

/-- Core of `std::stoull(s, nullptr, 16)` after whitespace and sign: an
optional `0x` prefix (consumed only when a hex digit follows, as
`strtoull` backs up otherwise), then the maximal run of hex digits;
no digit at all throws `invalid_argument` and a value beyond
`ULLONG_MAX` throws `out_of_range`, both modelled as `none` since every
call site catches them identically. -/
def stoullCore (cs : List Char) : Option Nat :=
  let cs2 :=
    match cs with
    | c0 :: c1 :: rest =>
      if c0 = '0' ∧ (c1 = 'x' ∨ c1 = 'X') ∧ (hexVal (rest.headD ' ')).isSome then rest
      else cs
    | _ => cs
  let digits := cs2.takeWhile (fun c => (hexVal c).isSome)
  if digits = [] then none
  else
    let v := digits.foldl (fun a c => a * 16 + (hexVal c).getD 0) 0
    if v ≥ 2 ^ 64 then none else some v

/-- Model of `std::stoull(s, nullptr, 16)` as `path_resolution.cpp` uses
it: leading whitespace, an optional sign (a negative value wraps in
unsigned 64-bit arithmetic), then `stoullCore`. -/
def stoullHex (cs : List Char) : Option Nat :=
  let cs := cs.dropWhile isSpaceC
  match cs with
  | '-' :: rest => (stoullCore rest).map (fun n => (2 ^ 64 - n % 2 ^ 64) % 2 ^ 64)
  | '+' :: rest => stoullCore rest
  | _ => stoullCore cs

/-- Index semantics of `std::string::find(char, pos)`. -/
def findCharFrom (cs : List Char) (c : Char) (start : Nat) : Option Nat :=
  match (cs.drop start).findIdx? (fun x => x = c) with
  | none => none
  | some i => some (start + i)

/-- Index semantics of `std::string::find_first_not_of(set, pos)`. -/
def findFirstNotOfFrom (cs : List Char) (set : List Char) (start : Nat) : Option Nat :=
  match (cs.drop start).findIdx? (fun x => !set.contains x) with
  | none => none
  | some i => some (start + i)

/-- Index semantics of `std::string::find_first_of(set, pos)`. -/
def findFirstOfFrom (cs : List Char) (set : List Char) (start : Nat) : Option Nat :=
  match (cs.drop start).findIdx? (fun x => set.contains x) with
  | none => none
  | some i => some (start + i)

/-- Semantics of `std::string::substr(pos, len)`. -/
def substrL (cs : List Char) (pos len : Nat) : List Char :=
  (cs.drop pos).take len

/-- Outcome of one `/proc/self/maps` line in the loop body of
`kpack_discover_binary_path`: either some `continue` fired, or the line
matched and the loop is about to copy `pathname` out. -/
inductive LineResult where
  | noMatch
  | found (pathname : List Char) (file_offset : Nat) (low_addr : Nat)
  deriving DecidableEq, Repr

/-- The positional field walk of one `/proc/self/maps` line
(`path_resolution.cpp` lines 45-134), in source order with the address
range test in its place: each failed find or failed address parse, and a
target outside `[lo, hi)`, is the loop's `continue` (`none`); a failed
file-offset parse falls back to 0.  On success: (file_offset, low_addr,
pathname). -/
def parseLineFields (target : Nat) (line : List Char) :
    Option (Nat × Nat × List Char) :=
  (findCharFrom line '-' 0).bind fun dash_pos =>
  (stoullHex (substrL line 0 dash_pos)).bind fun low_addr =>
  (findCharFrom line ' ' (dash_pos + 1)).bind fun space_pos =>
  (stoullHex (substrL line (dash_pos + 1) (space_pos - dash_pos - 1))).bind fun high_addr =>
  if target < low_addr ∨ target ≥ high_addr then none
  else
    (findCharFrom line ' ' (space_pos + 1)).bind fun next_space =>
    (findCharFrom line ' ' (next_space + 1)).bind fun offset_end =>
    (findCharFrom line ' ' (offset_end + 1)).bind fun dev_end =>
    (findFirstNotOfFrom line [' ', '\t'] (dev_end + 1)).bind fun path_start1 =>
    (findFirstOfFrom line [' ', '\t'] path_start1).bind fun inode_end =>
    (findFirstNotOfFrom line [' ', '\t'] inode_end).bind fun path_start =>
    some ((stoullHex (substrL line (next_space + 1) (offset_end - next_space - 1))).getD 0,
      low_addr, line.drop path_start)

/-- Embedding of one iteration of the line loop of
`kpack_discover_binary_path` (`path_resolution.cpp` lines 45-139): the
field walk above followed by the `[special]`-mapping filter (the last
`continue` of the loop body). -/
def parseLine (target : Nat) (line : List Char) : LineResult :=
  match parseLineFields target line with
  | none => .noMatch
  | some (file_offset, low_addr, pathname) =>
    if pathname ≠ [] ∧ pathname.headD ' ' = '[' then .noMatch
    else .found pathname file_offset low_addr

/-- The line loop of `kpack_discover_binary_path` (lines 45-159): first
matching line wins; a pathname not fitting the caller's buffer
(`pathname.size() >= path_out_size`, the terminating NUL included) is
`INVALID_ARGUMENT`; `offset_out`, when requested, is `file_offset +
(address - lo)` in `size_t` arithmetic; exhausting the lines is
`PATH_DISCOVERY_FAILED`. -/
def discoverScan (target size : Nat) (offPresent : Bool) :
    List (List Char) → Except KError (List Char × Option Nat)
  | [] => .error .pathDiscoveryFailed
  | line :: rest =>
    match parseLine target line with
    | .noMatch => discoverScan target size offPresent rest
    | .found pathname file_offset low_addr =>
      if pathname.length ≥ size then .error .invalidArgument
      else
        .ok (pathname,
          if offPresent then some ((file_offset + (target - low_addr)) % 2 ^ 64) else none)

/-- Embedding of `kpack_discover_binary_path` (`path_resolution.cpp`
lines 21-160) on Linux, for a non-null address and output buffer: the
opened `/proc/self/maps` is the list of its lines.  A zero-size buffer
is rejected at entry as in the C argument validation. -/
def kpack_discover_binary_path (lines : List (List Char)) (target : Nat)
    (path_out_size : Nat) (offPresent : Bool) :
    Except KError (List Char × Option Nat) :=
  if path_out_size = 0 then .error .invalidArgument
  else discoverScan target path_out_size offPresent lines

/-! ### Theorems -/

/-- Helper: reading an index below the cut of a `take` sees the original
list. -/
theorem getD_take_of_lt (l : List Nat) (n i : Nat) (h : i < n) :
    (l.take n).getD i 0 = l.getD i 0 := by
  simp [List.getD_eq_getElem?_getD, List.getElem?_take, h]

/-- Helper: the 32-bit field at offset 4 is unchanged by truncating the
file to its 16-byte header. -/
theorem le32At_take16 (f : List Nat) : le32At (f.take 16) 4 = le32At f 4 := by
  simp [le32At, getD_take_of_lt _ 16 4 (by omega), getD_take_of_lt _ 16 5 (by omega),
    getD_take_of_lt _ 16 6 (by omega), getD_take_of_lt _ 16 7 (by omega)]

/-- C6 (amended): header validation returns INVALID_FORMAT when the
file holds fewer than 16 bytes, when the underlying read delivers fewer
than 16 bytes for any reason (an I/O failure surfaces as a short `fread`
count, so it also yields INVALID_FORMAT — `validate_header` has no
IO_ERROR path), and when the first 4 bytes differ from KPAK; it returns
UNSUPPORTED_VERSION when the magic matches but the little-endian 32-bit
version field is not 1, and succeeds otherwise. -/
theorem C6_header_validation (f : List Nat) (delivered : Nat) :
    (delivered < 16 → validate_header (fread16 f delivered) = .error .invalidFormat)
    ∧ (f.length < 16 → validate_header (fread16 f delivered) = .error .invalidFormat)
    ∧ (16 ≤ delivered → 16 ≤ f.length → f.take 4 ≠ kpackMagicBytes →
        validate_header (fread16 f delivered) = .error .invalidFormat)
    ∧ (16 ≤ delivered → 16 ≤ f.length → f.take 4 = kpackMagicBytes → le32At f 4 ≠ 1 →
        validate_header (fread16 f delivered) = .error .unsupportedVersion)
    ∧ (16 ≤ delivered → 16 ≤ f.length → f.take 4 = kpackMagicBytes → le32At f 4 = 1 →
        validate_header (fread16 f delivered) = .ok (1, le64At (f.take 16) 8)) := by
  have hlen : (fread16 f delivered).length = min (min delivered 16) f.length := by
    simp [fread16, Nat.min_comm]
  refine ⟨?_, ?_, ?_, ?_, ?_⟩
  · intro h
    have : (fread16 f delivered).length ≠ 16 := by omega
    simp [validate_header, this]
  · intro h
    have : (fread16 f delivered).length ≠ 16 := by omega
    simp [validate_header, this]
  · intro hd hf hm
    have h16 : fread16 f delivered = f.take 16 := by
      simp [fread16, Nat.min_eq_right hd]
    have hlen16 : (f.take 16).length = 16 := by simp; omega
    have hm4 : (f.take 16).take 4 = f.take 4 := by
      simp [List.take_take]
    simp [validate_header, h16, hlen16, hm4, hm]
  · intro hd hf hm hv
    have h16 : fread16 f delivered = f.take 16 := by
      simp [fread16, Nat.min_eq_right hd]
    have hlen16 : (f.take 16).length = 16 := by simp; omega
    have hm4 : (f.take 16).take 4 = f.take 4 := by
      simp [List.take_take]
    simp [validate_header, h16, hlen16, hm4, hm, le32At_take16, hv]
  · intro hd hf hm hv
    have h16 : fread16 f delivered = f.take 16 := by
      simp [fread16, Nat.min_eq_right hd]
    have hlen16 : (f.take 16).length = 16 := by simp; omega
    have hm4 : (f.take 16).take 4 = f.take 4 := by
      simp [List.take_take]
    simp [validate_header, h16, hlen16, hm4, hm, le32At_take16, hv]

/-- Concrete 20-byte archive file with good magic, version 1 and TOC
offset 20, used by the C6 theorems. -/
def c6GoodFile : List Nat :=
  kpackMagicBytes ++ [1, 0, 0, 0] ++ [20, 0, 0, 0, 0, 0, 0, 0] ++ [0, 0, 0, 0]

/-- C6 counterexample: when the underlying read of the 16-byte header
fails (modelled by `fread` delivering 0 of the 20 available bytes),
`validate_header` returns INVALID_FORMAT, not the IO_ERROR the claim
requires: the short-count check at `archive.cpp` line 15 cannot tell a
read failure from a short file. -/
theorem C6_counterexample :
    c6GoodFile.length = 20
    ∧ validate_header (fread16 c6GoodFile 0) = .error .invalidFormat
    ∧ KError.invalidFormat ≠ KError.ioError := by
  refine ⟨by decide, by decide, by decide⟩

/-- C6 witness: the amended theorem applied to concrete headers — a good
header is accepted, magic XXXX is INVALID_FORMAT, version 999 is
UNSUPPORTED_VERSION, and a 20-byte-file read failure after 3 bytes is
INVALID_FORMAT. -/
theorem C6_witness :
    validate_header (fread16 c6GoodFile 20) = .ok (1, le64At (c6GoodFile.take 16) 8)
    ∧ validate_header (fread16 ([88, 88, 88, 88] ++ [1, 0, 0, 0] ++ [20, 0, 0, 0, 0, 0, 0, 0] ++ [0, 0, 0, 0]) 20) = .error .invalidFormat
    ∧ validate_header (fread16 (kpackMagicBytes ++ [231, 3, 0, 0] ++ [20, 0, 0, 0, 0, 0, 0, 0] ++ [0, 0, 0, 0]) 20) = .error .unsupportedVersion
    ∧ validate_header (fread16 c6GoodFile 3) = .error .invalidFormat := by
  refine ⟨?_, ?_, ?_, ?_⟩
  · exact (C6_header_validation c6GoodFile 20).2.2.2.2 (by decide) (by decide) (by decide) (by decide)
  · exact (C6_header_validation _ 20).2.2.1 (by decide) (by decide) (by decide)
  · exact (C6_header_validation _ 20).2.2.2.1 (by decide) (by decide) (by decide) (by decide)
  · exact (C6_header_validation c6GoodFile 3).1 (by decide)

/-- Helper: the field-combination step of `parse_toc` never produces an
error code — its outcomes are success or an escaping exception. -/
theorem combineToc_ne_err (s : Scheme) (a : List String)
    (b : Except Unit (List BlobInfo)) (z1 z2 : Except Unit Nat)
    (t : Except Unit (List (String × List (String × KernelMetadata))))
    (e : KError) : combineToc s a b z1 z2 t ≠ .err e := by
  cases b <;> cases z1 <;> cases z2 <;> cases t <;> simp [combineToc]

/-- Helper: a successful `parse_toc` field combination populates the
scheme and architecture fields with the extracted values. -/
theorem combineToc_ok_fields (s : Scheme) (a : List String)
    (b : Except Unit (List BlobInfo)) (z1 z2 : Except Unit Nat)
    (t : Except Unit (List (String × List (String × KernelMetadata))))
    (td : TocData) (h : combineToc s a b z1 z2 t = .ok td) :
    td.compression_scheme = s ∧ td.gfx_arches = a := by
  cases b <;> cases z1 <;> cases z2 <;> cases t
  case ok.ok.ok.ok =>
    simp [combineToc] at h
    simp [← h]
  all_goals simp [combineToc] at h

/-- C5 (amended): `parse_toc` rejects a non-map decoded root with
MSGPACK_PARSE_FAILED, but a field required for the declared compression
scheme is handled like every other field, never with INVALID_FORMAT
(no TOC content yields an error code at all): a missing or wrong-typed
`blobs` is treated as absent leaving an empty blob index, missing
`zstd_offset` / `zstd_size` keep their zero defaults, and a present but
wrong-typed `zstd_offset` raises an uncaught decoder type error instead
of an error code, while wrong-typed non-required string and array
fields (`gfx_arches`, `compression_scheme`) are treated as absent. -/
theorem C5_toc_required_fields :
    (∀ (f : List Nat) (off : Nat) (unpack : List Nat → Option MP) (root : MP),
      off < f.length → unpack (f.drop off) = some root → root.isMap = false →
      parse_toc f off unpack = .err .msgpackParseFailed)
    ∧ (∀ (kvs : List (MP × MP)) (e : KError), parse_toc_root (.map kvs) ≠ .err e)
    ∧ (∀ kvs : List (MP × MP), schemeOf kvs = .noop →
      find_key kvs ("blobs") = none → find_key kvs ("toc") = none →
      ∃ td, parse_toc_root (.map kvs) = .ok td ∧ td.blobs = [] ∧
        td.compression_scheme = .noop)
    ∧ (∀ kvs : List (MP × MP), schemeOf kvs = .zstdPerKernel →
      find_key kvs ("zstd_offset") = none → find_key kvs ("zstd_size") = none →
      find_key kvs ("toc") = none →
      ∃ td, parse_toc_root (.map kvs) = .ok td ∧ td.zstd_offset = 0 ∧
        td.zstd_size = 0)
    ∧ (∀ (kvs : List (MP × MP)) (s : String), schemeOf kvs = .zstdPerKernel →
      find_key kvs ("zstd_offset") = some (.str s) →
      parse_toc_root (.map kvs) = .exn)
    ∧ (∀ v : MP, v.isArr = false → parseArches (some v) = [])
    ∧ (∀ (kvs : List (MP × MP)) (v : MP),
      find_key kvs ("compression_scheme") = some v → v.isStr = false →
      schemeOf kvs = .noop) := by
  refine ⟨?_, ?_, ?_, ?_, ?_, ?_, ?_⟩
  · intro f off unpack root h1 h2 h3
    have hne : ¬ off ≥ f.length := by omega
    cases root <;> simp [MP.isMap] at h3 <;>
      simp [parse_toc, hne, h2, parse_toc_root]
  · intro kvs e
    simp only [parse_toc_root]
    exact combineToc_ne_err _ _ _ _ _ _ _
  · intro kvs h1 h2 h3
    refine ⟨TocData.mk .noop (parseArches (find_key kvs ("gfx_arches"))) [] 0 0 [],
      ?_, rfl, rfl⟩
    simp [parse_toc_root, h1, h2, h3, parseBlobs, parseTocMap, combineToc]
  · intro kvs h1 h2 h3 h4
    refine ⟨TocData.mk .zstdPerKernel (parseArches (find_key kvs ("gfx_arches"))) [] 0 0 [],
      ?_, rfl, rfl⟩
    simp [parse_toc_root, h1, h2, h3, h4, parseTocMap, combineToc]
  · intro kvs s h1 h2
    simp [parse_toc_root, h1, h2, mpAsU64, combineToc]
  · intro v h
    cases v <;> simp [MP.isArr] at h ⊢ <;> simp [parseArches]
  · intro kvs v h1 h2
    cases v <;> simp [MP.isStr] at h2 <;> simp [schemeOf, h1]

/-- C5 counterexample: a TOC map declaring `compression_scheme = none`
with no `blobs` key parses successfully (with an empty blob index); the
claim requires INVALID_FORMAT for the missing required field, but
`parse_toc` has no such check. -/
theorem C5_counterexample :
    parse_toc_root (.map [(MP.str ("compression_scheme"), MP.str ("none"))])
      = .ok (TocData.mk .noop [] [] 0 0 [])
    ∧ ParseOutcome.ok (TocData.mk .noop [] [] 0 0 []) ≠ .err .invalidFormat := by
  exact ⟨by decide, by decide⟩

/-- C5 witness: the amended theorem applied to concrete TOC maps — an
empty map never yields INVALID_FORMAT, and a zstd-per-kernel map whose
`zstd_offset` is a string makes the decoder exception escape. -/
theorem C5_witness :
    (parse_toc_root (.map []) ≠ .err .invalidFormat)
    ∧ parse_toc_root (.map [(MP.str ("compression_scheme"), MP.str ("zstd-per-kernel")),
        (MP.str ("zstd_offset"), MP.str ("oops"))]) = .exn := by
  constructor
  · exact C5_toc_required_fields.2.1 [] .invalidFormat
  · exact C5_toc_required_fields.2.2.2.2.1
      [(MP.str ("compression_scheme"), MP.str ("zstd-per-kernel")),
        (MP.str ("zstd_offset"), MP.str ("oops"))] ("oops") (by rfl) (by rfl)

/-- Helper: every frame the header walk records lies inside the blob —
the two bounds checks of the loop guarantee `offset_in_blob +
compressed_size ≤ blob.length` for each recorded frame. -/
theorem parseFrames_bounds (blob : List Nat) :
    ∀ (count pos : Nat) (acc frames : List FrameInfo),
    (∀ fr ∈ acc, fr.offset_in_blob + fr.compressed_size ≤ blob.length) →
    parseFrames blob count pos acc = some frames →
    ∀ fr ∈ frames, fr.offset_in_blob + fr.compressed_size ≤ blob.length := by
  intro count
  induction count with
  | zero =>
    intro pos acc frames hacc h fr hfr
    simp [parseFrames] at h
    subst h
    exact hacc fr (List.mem_reverse.mp hfr)
  | succ n ih =>
    intro pos acc frames hacc h fr hfr
    simp only [parseFrames] at h
    split at h
    · simp at h
    · split at h
      · simp at h
      · refine ih _ _ _ ?_ h fr hfr
        intro fr' hfr'
        rcases List.mem_cons.mp hfr' with h' | h'
        · subst h'
          simp
          omega
        · exact hacc fr' h'

/-- C7: `build_zstd_frame_index` returns INVALID_FORMAT whenever the
blob exceeds 4 GiB, whenever (the blob being readable) the 4-byte
frame-count prefix exceeds 1,048,576, and whenever the frame walk hits a
size prefix or payload extending past the blob end; and on success every
recorded frame's `(offset_in_blob, compressed_size)` range lies inside
the cached blob, whose length is `zstd_size`, so neither the index walk
nor `decompress_zstd`'s frame slice reads outside the blob. -/
theorem C7_zstd_frame_index (a : Archive) :
    (a.zstd_size > 4 * 1024 * 1024 * 1024 →
      build_zstd_frame_index a = .error .invalidFormat)
    ∧ (a.zstd_size ≤ 4 * 1024 * 1024 * 1024 →
      a.zstd_offset + a.zstd_size ≤ a.file.length → 4 ≤ a.zstd_size →
      1024 * 1024 < le32At ((a.file.drop a.zstd_offset).take a.zstd_size) 0 →
      build_zstd_frame_index a = .error .invalidFormat)
    ∧ (a.zstd_size ≤ 4 * 1024 * 1024 * 1024 →
      a.zstd_offset + a.zstd_size ≤ a.file.length → 4 ≤ a.zstd_size →
      le32At ((a.file.drop a.zstd_offset).take a.zstd_size) 0 ≤ 1024 * 1024 →
      parseFrames ((a.file.drop a.zstd_offset).take a.zstd_size)
        (le32At ((a.file.drop a.zstd_offset).take a.zstd_size) 0) 4 [] = none →
      build_zstd_frame_index a = .error .invalidFormat)
    ∧ (∀ a2 : Archive, build_zstd_frame_index a = .ok a2 →
      a2.zstd_blob.length = a.zstd_size ∧
      ∀ fr ∈ a2.zstd_frames,
        fr.offset_in_blob + fr.compressed_size ≤ a2.zstd_blob.length) := by
  have hblen : a.zstd_offset + a.zstd_size ≤ a.file.length →
      ((a.file.drop a.zstd_offset).take a.zstd_size).length = a.zstd_size := by
    intro h
    simp
    omega
  refine ⟨?_, ?_, ?_, ?_⟩
  · intro h
    simp [build_zstd_frame_index, h]
  · intro h1 h2 h3 h4
    have hb := hblen h2
    have hn4 : ¬ a.zstd_size < 4 := by omega
    simp [build_zstd_frame_index, Nat.not_lt.mpr h1, hb, hn4, h4]
  · intro h1 h2 h3 h4 h5
    have hb := hblen h2
    have hn4 : ¬ a.zstd_size < 4 := by omega
    simp [build_zstd_frame_index, Nat.not_lt.mpr h1, hb, hn4, Nat.not_lt.mpr h4, h5]
  · intro a2 h
    simp only [build_zstd_frame_index] at h
    split at h
    · simp at h
    · split at h
      · simp at h
      · split at h
        · simp at h
        · split at h
          · simp at h
          · split at h
            · simp at h
            · rename_i frames hframes
              simp only [Except.ok.injEq] at h
              subst h
              refine ⟨?_, ?_⟩
              · simp_all
              · intro fr hfr
                exact parseFrames_bounds _ _ _ _ _ (by simp) hframes fr hfr

/-- Concrete zstd archive whose declared blob exceeds 4 GiB. -/
def c7Big : Archive :=
  Archive.mk [] .zstdPerKernel [] [] [] 0 (4 * 1024 * 1024 * 1024 + 1) [] [] []

/-- Concrete zstd archive whose 10-byte blob holds one 2-byte frame. -/
def c7Good : Archive :=
  Archive.mk [1, 0, 0, 0, 2, 0, 0, 0, 9, 9] .zstdPerKernel [] [] [] 0 10 [] [] []

/-- The archive `c7Good` after a successful `build_zstd_frame_index`. -/
def c7GoodIndexed : Archive :=
  Archive.mk [1, 0, 0, 0, 2, 0, 0, 0, 9, 9] .zstdPerKernel [] [] [] 0 10
    [1, 0, 0, 0, 2, 0, 0, 0, 9, 9] [FrameInfo.mk 8 2] []

/-- C7 witness: the theorem applied to concrete archives — an
over-large blob is INVALID_FORMAT, and indexing a well-formed one-frame
blob keeps every recorded frame inside it. -/
theorem C7_zstd_frame_index_witness :
    build_zstd_frame_index c7Big = .error .invalidFormat
    ∧ (c7GoodIndexed.zstd_blob.length = c7Good.zstd_size
      ∧ ∀ fr ∈ c7GoodIndexed.zstd_frames,
        fr.offset_in_blob + fr.compressed_size ≤ c7GoodIndexed.zstd_blob.length) := by
  constructor
  · exact (C7_zstd_frame_index c7Big).1 (by decide)
  · exact (C7_zstd_frame_index c7Good).2.2.2 c7GoodIndexed (by decide)

/-- A trivial stand-in for the Zstd decompressor, usable whenever the
archive under study uses the `none` scheme (the parameter is then never
consulted). -/
def zdNone : List Nat → Nat → Option (List Nat) := fun _ _ => none

/-- Helper: a successful association-list lookup exhibits membership. -/
theorem assocFind_mem {α β : Type} [DecidableEq α] (l : List (α × β)) (k : α)
    (v : β) (h : assocFind l k = some v) : (k, v) ∈ l := by
  induction l with
  | nil => simp [assocFind] at h
  | cons p rest ih =>
    rcases p with ⟨k0, v0⟩
    simp only [assocFind] at h
    split at h
    · rename_i heq
      cases h
      subst heq
      exact List.mem_cons_self _ _
    · exact List.mem_cons_of_mem _ (ih h)

/-- The §3 validity invariants of the spec for a `none`-scheme archive:
every ordinal referenced by the TOC indexes `blobs`, and every blob's
byte range lies within the file. -/
def validNoop (a : Archive) : Prop :=
  a.compression_scheme = .noop
  ∧ (∀ p ∈ a.toc, ∀ q ∈ p.2, (q.2 : KernelMetadata).ordinal < a.blobs.length)
  ∧ (∀ b ∈ a.blobs, b.offset + b.size ≤ a.file.length)

/-- The blob locator a no-op fetch of the kernel with metadata `km`
consults (`archive->blobs[ordinal]`). -/
def noopBlob (a : Archive) (km : KernelMetadata) : BlobInfo :=
  a.blobs.getD km.ordinal (BlobInfo.mk 0 0)

/-- The bytes a no-op fetch reads from the file for metadata `km`. -/
def noopData (a : Archive) (km : KernelMetadata) : List Nat :=
  (a.file.drop (noopBlob a km).offset).take (noopBlob a km).size

/-- The archive state after a successful no-op fetch: the kernel cache
holds the blob's bytes. -/
def noopFetch (a : Archive) (km : KernelMetadata) : Archive :=
  { a with kernel_cache := noopData a km }

/-- C3 (amended): on a §3-valid `none`-scheme archive, `kpack_get_kernel`
succeeds for every TOC entry and materializes exactly the blob's bytes:
the returned size is `blobs[ordinal].size` (so it equals the entry's
`original_size` precisely when the archive records the two consistently
— `decompress_noop` receives `expected_size` and ignores it). -/
theorem C3_get_kernel_blob_size (zd : List Nat → Nat → Option (List Nat))
    (a : Archive) (binary arch : String)
    (m : List (String × KernelMetadata)) (km : KernelMetadata)
    (hv : validNoop a) (hb : assocFind a.toc binary = some m)
    (ha : assocFind m arch = some km) :
    kpack_get_kernel zd a binary arch =
      .ok (noopFetch a km, noopData a km, (noopBlob a km).size) := by
  obtain ⟨hs, hord, hbounds⟩ := hv
  have hlt : km.ordinal < a.blobs.length :=
    hord (binary, m) (assocFind_mem _ _ _ hb) (arch, km) (assocFind_mem _ _ _ ha)
  have hblob : noopBlob a km ∈ a.blobs := by
    rw [noopBlob, List.getD_eq_getElem _ _ hlt]
    exact List.getElem_mem hlt
  have hbound := hbounds _ hblob
  rw [noopBlob] at hbound
  have hlen2 :
      ((a.file.drop (a.blobs.getD km.ordinal (BlobInfo.mk 0 0)).offset).take
        (a.blobs.getD km.ordinal (BlobInfo.mk 0 0)).size).length =
      (a.blobs.getD km.ordinal (BlobInfo.mk 0 0)).size := by
    simp only [List.length_take, List.length_drop]
    omega
  have hdlen : ¬ (((a.file.drop (a.blobs.getD km.ordinal (BlobInfo.mk 0 0)).offset).take
        (a.blobs.getD km.ordinal (BlobInfo.mk 0 0)).size).length ≠
      (a.blobs.getD km.ordinal (BlobInfo.mk 0 0)).size) := by
    exact not_ne_iff.mpr hlen2
  simp only [kpack_get_kernel, hb, ha, hs]
  simp only [decompress_noop]
  rw [if_pos hlt, if_neg hdlen]
  simp [noopFetch, noopData, noopBlob, hlen2]
  simp only [List.getD_eq_getElem?_getD] at hbound
  omega

/-- Concrete §3-valid `none` archive whose only TOC entry declares
`original_size = 5` over a 2-byte blob — the listed invariants do not
relate the two fields. -/
def c3Bad : Archive :=
  Archive.mk [7, 8, 9, 10] .noop ["g"]
    [("b", [("g", KernelMetadata.mk ("hsaco") 0 5)])]
    [BlobInfo.mk 1 2] 0 0 [] [] []

/-- The archive `c3Bad` right after its single kernel fetch. -/
def c3BadAfter : Archive :=
  Archive.mk [7, 8, 9, 10] .noop ["g"]
    [("b", [("g", KernelMetadata.mk ("hsaco") 0 5)])]
    [BlobInfo.mk 1 2] 0 0 [] [] [8, 9]

/-- C3 counterexample: on the §3-valid archive `c3Bad`,
`kpack_get_kernel` succeeds but returns 2 bytes where the TOC entry's
`original_size` is 5 — the claim's "returned size equals that entry's
original_size" fails because `decompress_noop` materializes
`blobs[ordinal].size` bytes and ignores its `expected_size` argument. -/
theorem C3_counterexample :
    validNoop c3Bad
    ∧ kpack_get_kernel zdNone c3Bad ("b") ("g") = .ok (c3BadAfter, [8, 9], 2)
    ∧ (2 : Nat) ≠ 5 := by
  refine ⟨?_, by decide, by decide⟩
  unfold validNoop
  decide

/-- Concrete archive as `c3Bad` but with `original_size` matching the
blob size. -/
def c3Good : Archive :=
  Archive.mk [7, 8, 9, 10] .noop ["g"]
    [("b", [("g", KernelMetadata.mk ("hsaco") 0 2)])]
    [BlobInfo.mk 1 2] 0 0 [] [] []

/-- C3 witness: the amended theorem applied to `c3Good`, where the
returned size (the blob's 2 bytes) coincides with `original_size`. -/
theorem C3_witness :
    kpack_get_kernel zdNone c3Good ("b") ("g") =
      .ok (noopFetch c3Good (KernelMetadata.mk ("hsaco") 0 2),
        noopData c3Good (KernelMetadata.mk ("hsaco") 0 2), 2) := by
  have h := C3_get_kernel_blob_size zdNone c3Good ("b") ("g")
    [("g", KernelMetadata.mk ("hsaco") 0 2)] (KernelMetadata.mk ("hsaco") 0 2)
    (by unfold validNoop; decide) (by rfl) (by rfl)
  exact h

/-- Concrete two-kernel `none` archive for the aliasing experiment. -/
def c1A : Archive :=
  Archive.mk [1, 1, 1, 2, 2, 2, 2] .noop ["g1", "g2"]
    [("b", [("g1", KernelMetadata.mk ("hsaco") 0 3),
      ("g2", KernelMetadata.mk ("hsaco") 1 4)])]
    [BlobInfo.mk 0 3, BlobInfo.mk 3 4] 0 0 [] [] []

/-- The archive `c1A` after fetching kernel `g1`. -/
def c1A1 : Archive :=
  Archive.mk [1, 1, 1, 2, 2, 2, 2] .noop ["g1", "g2"]
    [("b", [("g1", KernelMetadata.mk ("hsaco") 0 3),
      ("g2", KernelMetadata.mk ("hsaco") 1 4)])]
    [BlobInfo.mk 0 3, BlobInfo.mk 3 4] 0 0 [] [] [1, 1, 1]

/-- The archive `c1A1` after fetching kernel `g2`. -/
def c1A2 : Archive :=
  Archive.mk [1, 1, 1, 2, 2, 2, 2] .noop ["g1", "g2"]
    [("b", [("g1", KernelMetadata.mk ("hsaco") 0 3),
      ("g2", KernelMetadata.mk ("hsaco") 1 4)])]
    [BlobInfo.mk 0 3, BlobInfo.mk 3 4] 0 0 [] [] [2, 2, 2, 2]

/-- C1: the buffer `kpack_get_kernel` returns is not an independent
allocation.  `kpack.cpp` lines 91-94 hand back
`archive->kernel_cache.data()`, so the caller's pointer aliases the
handle's single kernel cache (`kpack_internal.h` lines 102-106): after
the first call the caller's buffer reads `[1, 1, 1]`, but the second
call overwrites the cache with `[2, 2, 2, 2]` — the bytes the first
pointer now sees — and `kpack_close` frees them.  This contradicts the
claim and the code's own contract (`kpack.h` lines 119-122: the pointer
"remains valid until freed, regardless of other operations on the
archive" and must be released with `kpack_free_kernel`, a function the
library does not even define), so the code, not the spec, is at fault. -/
theorem C1_kernel_cache_overwritten :
    kpack_get_kernel zdNone c1A ("b") ("g1") = .ok (c1A1, [1, 1, 1], 3)
    ∧ c1A1.kernel_cache = [1, 1, 1]
    ∧ kpack_get_kernel zdNone c1A1 ("b") ("g2") = .ok (c1A2, [2, 2, 2, 2], 4)
    ∧ c1A2.kernel_cache ≠ [1, 1, 1] := by
  exact ⟨by decide, by decide, by decide, by decide⟩

/-- Helper: folding an append-one-element step equals appending the map. -/
theorem foldl_push_map {α β : Type} (f : α → β) (l : List α) (init : List β) :
    l.foldl (fun acc x => acc ++ [f x]) init = init ++ l.map f := by
  induction l generalizing init with
  | nil => simp
  | cons a rest ih => simp [ih, List.append_assoc]

/-- C8: the effective search-path list of `kpack_load_code_object` is
exactly the `ROCM_KPACK_PATH` override when that resolved list is
non-empty (embedded paths ignored); otherwise it is the
`ROCM_KPACK_PATH_PREFIX` list followed by the embedded paths each
resolved against the directory of `binary_path`, an absolute embedded
path being kept unchanged by `resolve_path`. -/
theorem C8_effective_search_paths (cache : CacheState)
    (wc : String → Option String) (binary_path : String)
    (embedded : List String) :
    (cache.env_path_override ≠ [] →
      buildSearchPaths cache wc binary_path embedded = cache.env_path_override)
    ∧ (cache.env_path_override = [] →
      buildSearchPaths cache wc binary_path embedded =
        cache.env_path_prefix_list ++ embedded.map (resolve_path wc binary_path))
    ∧ (∀ rel, isAbsolutePath rel = true → resolve_path wc binary_path rel = rel) := by
  refine ⟨?_, ?_, ?_⟩
  · intro h
    simp [buildSearchPaths, h]
  · intro h
    by_cases hp : cache.env_path_prefix_list = [] <;>
      simp [buildSearchPaths, h, hp, foldl_push_map]
  · intro rel h
    simp [resolve_path, h]

/-- An identity weak canonicalizer (a filesystem in which every joined
path canonicalizes to itself). -/
def wcSome : String → Option String := fun s => some s

/-- Cache with a path override configured. -/
def c8Over : CacheState := CacheState.mk ["o"] ["p"] false false [] []

/-- Cache without an override but with a prefix path. -/
def c8Plain : CacheState := CacheState.mk [] ["p"] false false [] []

/-- C8 witness: the theorem applied to concrete caches — the override
wins outright; otherwise the prefix precedes the resolved embedded
paths, relative ones joined to the binary's directory and absolute ones
untouched. -/
theorem C8_witness :
    buildSearchPaths c8Over wcSome ("/bin/app") ["a.kpack"] = ["o"]
    ∧ buildSearchPaths c8Plain wcSome ("/bin/app") ["a.kpack", "/abs/x.kpack"] =
        ["p", "/bin/a.kpack", "/abs/x.kpack"]
    ∧ resolve_path wcSome ("/bin/app") ("/abs/x.kpack") = "/abs/x.kpack" := by
  refine ⟨?_, ?_, ?_⟩
  · exact (C8_effective_search_paths c8Over wcSome ("/bin/app") ["a.kpack"]).1
      (by decide)
  · exact ((C8_effective_search_paths c8Plain wcSome ("/bin/app")
      ["a.kpack", "/abs/x.kpack"]).2.1 rfl).trans (by decide)
  · exact (C8_effective_search_paths c8Plain wcSome ("/bin/app") []).2.2
      ("/abs/x.kpack") (by decide)

/-- Helper: `decompress_noop` only ever reports IO_ERROR or
KERNEL_NOT_FOUND, or succeeds. -/
theorem decompress_noop_errors (a : Archive) (o e : Nat) :
    decompress_noop a o e = .error .ioError
    ∨ decompress_noop a o e = .error .kernelNotFound
    ∨ ∃ a2, decompress_noop a o e = .ok a2 := by
  simp only [decompress_noop]
  split
  · split
    · left
      rfl
    · right
      right
      exact ⟨_, rfl⟩
  · right
    left
    rfl

/-- Helper: `decompress_zstd` only ever reports DECOMPRESSION_FAILED or
KERNEL_NOT_FOUND, or succeeds. -/
theorem decompress_zstd_errors (zd : List Nat → Nat → Option (List Nat))
    (a : Archive) (o e : Nat) :
    decompress_zstd zd a o e = .error .decompressionFailed
    ∨ decompress_zstd zd a o e = .error .kernelNotFound
    ∨ ∃ a2, decompress_zstd zd a o e = .ok a2 := by
  simp only [decompress_zstd]
  split
  · split
    · left
      rfl
    · split
      · left
        rfl
      · right
        right
        exact ⟨_, rfl⟩
  · right
    left
    rfl

/-- Helper: `kpack_get_kernel` never reports INVALID_ARGUMENT once its
pointer arguments passed the entry check (none of its lookup or
decompression errors is that code). -/
theorem kpack_get_kernel_no_invalid_argument
    (zd : List Nat → Nat → Option (List Nat)) (a : Archive)
    (binary arch : String) :
    kpack_get_kernel zd a binary arch ≠ .error .invalidArgument := by
  simp only [kpack_get_kernel]
  cases h1 : assocFind a.toc binary with
  | none => simp
  | some m =>
    cases h2 : assocFind m arch with
    | none => simp [h2]
    | some km =>
      cases h3 : a.compression_scheme with
      | noop =>
        rcases decompress_noop_errors a km.ordinal km.original_size with h | h | ⟨a2, h⟩ <;>
          simp [h2, h3, h]
      | zstdPerKernel =>
        rcases decompress_zstd_errors zd a km.ordinal km.original_size with h | h | ⟨a2, h⟩ <;>
          simp [h2, h3, h]

/-- C10: a null entry of `arch_list` (a `none` in the embedding) is
silently skipped by the search loop of `kpack_load_code_object` (line
364's `continue`): the search result equals that of the list with the
null entries removed, in the same order, the null entry never reaches a
lookup, and the loop never reports INVALID_ARGUMENT; the same filtering
holds through the whole post-metadata load pipeline. -/
theorem C10_null_arch_entries_skipped (zd : List Nat → Nat → Option (List Nat))
    (cache : CacheState) (valid : List String) (kernel_name : String) :
    (∀ arch_list : List (Option String),
      archesSearch zd cache valid kernel_name arch_list =
        archesSearch zd cache valid kernel_name
          (arch_list.filter (fun o => o.isSome)))
    ∧ (∀ arch_list : List (Option String),
      archesSearch zd cache valid kernel_name arch_list ≠ .error .invalidArgument)
    ∧ (∀ (fs : FS) (embedded : List String) (binary_path : String)
        (arch_list : List (Option String)),
      kpack_load_code_object_core zd fs cache kernel_name embedded binary_path arch_list =
        kpack_load_code_object_core zd fs cache kernel_name embedded binary_path
          (arch_list.filter (fun o => o.isSome))) := by
  have hfilter : ∀ (c : CacheState) (v : List String) (arch_list : List (Option String)),
      archesSearch zd c v kernel_name arch_list =
        archesSearch zd c v kernel_name (arch_list.filter (fun o => o.isSome)) := by
    intro c v arch_list
    induction arch_list with
    | nil => rfl
    | cons head rest ih =>
      cases head with
      | none => simpa [archesSearch, List.filter] using ih
      | some arch =>
        simp only [List.filter]
        cases hsel : selectArchive c v arch with
        | none => simpa [archesSearch, hsel] using ih
        | some ar =>
          cases hk : kpack_get_kernel zd ar kernel_name arch with
          | ok p => simp [archesSearch, hsel, hk]
          | error e => cases e <;> simp [archesSearch, hsel, hk, ih]
  refine ⟨hfilter cache valid, ?_, ?_⟩
  · intro arch_list
    induction arch_list with
    | nil => simp [archesSearch]
    | cons head rest ih =>
      cases head with
      | none => simpa [archesSearch] using ih
      | some arch =>
        cases hsel : selectArchive cache valid arch with
        | none => simpa [archesSearch, hsel] using ih
        | some ar =>
          cases hk : kpack_get_kernel zd ar kernel_name arch with
          | ok p => simp [archesSearch, hsel, hk]
          | error e =>
            cases e <;> simp [archesSearch, hsel, hk] <;>
              first
                | exact ih
                | exact kpack_get_kernel_no_invalid_argument zd ar kernel_name arch hk
  · intro fs embedded binary_path arch_list
    simp only [kpack_load_code_object_core]
    split
    · rfl
    · split
      · rfl
      · exact hfilter _ _ arch_list

/-- C2 (amended): for each architecture of `arch_list` in caller order,
the search of `kpack_load_code_object` selects only the FIRST archive in
effective-path order whose recorded architecture set contains the arch;
`get_kernel` is attempted on that one handle — a success stops the
search, a `KERNEL_NOT_FOUND` moves on to the NEXT ARCHITECTURE (later
archives claiming the same arch are never tried, the inner loop having
already broken at the first claimant), and any other fetch error
propagates. -/
theorem C2_arch_first_search (zd : List Nat → Nat → Option (List Nat))
    (cache : CacheState) (valid : List String) (kernel_name : String) :
    (∀ (arch : String) (rest : List (Option String)),
      selectArchive cache valid arch = none →
      archesSearch zd cache valid kernel_name (some arch :: rest) =
        archesSearch zd cache valid kernel_name rest)
    ∧ (∀ (arch : String) (rest : List (Option String)) (ar : Archive)
        (out : Archive × List Nat × Nat),
      selectArchive cache valid arch = some ar →
      kpack_get_kernel zd ar kernel_name arch = .ok out →
      archesSearch zd cache valid kernel_name (some arch :: rest) =
        .ok (out.2.1, out.2.2))
    ∧ (∀ (arch : String) (rest : List (Option String)) (ar : Archive),
      selectArchive cache valid arch = some ar →
      kpack_get_kernel zd ar kernel_name arch = .error .kernelNotFound →
      archesSearch zd cache valid kernel_name (some arch :: rest) =
        archesSearch zd cache valid kernel_name rest)
    ∧ (∀ (arch : String) (rest : List (Option String)) (ar : Archive) (e : KError),
      selectArchive cache valid arch = some ar →
      kpack_get_kernel zd ar kernel_name arch = .error e → e ≠ .kernelNotFound →
      archesSearch zd cache valid kernel_name (some arch :: rest) = .error e)
    ∧ (∀ (l1 : List String) (p : String) (l2 : List String) (ar : Archive)
        (archs : List String) (arch : String),
      valid = l1 ++ p :: l2 →
      (∀ q ∈ l1, ¬ ∃ archs0, assocFind cache.archive_archs q = some archs0 ∧
        arch ∈ archs0) →
      assocFind cache.archive_archs p = some archs → arch ∈ archs →
      assocFind cache.archives p = some ar →
      selectArchive cache valid arch = some ar) := by
  refine ⟨?_, ?_, ?_, ?_, ?_⟩
  · intro arch rest hsel
    simp [archesSearch, hsel]
  · intro arch rest ar out hsel hk
    simp [archesSearch, hsel, hk]
  · intro arch rest ar hsel hk
    simp [archesSearch, hsel, hk]
  · intro arch rest ar e hsel hk hne
    cases e <;> simp [archesSearch, hsel, hk]
    exact absurd rfl hne
  · intro l1 p l2 ar archs arch hv hnone hp hmem har
    subst hv
    induction l1 with
    | nil => simp [selectArchive, hp, hmem, har]
    | cons q rest ih =>
      have hq : ¬ ∃ archs0, assocFind cache.archive_archs q = some archs0 ∧
          arch ∈ archs0 := hnone q (List.mem_cons_self _ _)
      have hrest : ∀ r ∈ rest, ¬ ∃ archs0,
          assocFind cache.archive_archs r = some archs0 ∧ arch ∈ archs0 :=
        fun r hr => hnone r (List.mem_cons_of_mem _ hr)
      cases hqa : assocFind cache.archive_archs q with
      | none => simpa [selectArchive, hqa] using ih hrest
      | some archs0 =>
        have : arch ∉ archs0 := fun hmem0 => hq ⟨archs0, hqa, hmem0⟩
        simpa [selectArchive, hqa, this] using ih hrest

/-- Archive claiming architecture `g` but holding no kernel for binary
`k` (its TOC is empty). -/
def c2A1 : Archive :=
  Archive.mk [] .noop ["g"] [] [] 0 0 [] [] []

/-- Archive later in path order, also claiming `g`, holding the kernel
for binary `k`. -/
def c2A2 : Archive :=
  Archive.mk [5, 6] .noop ["g"]
    [("k", [("g", KernelMetadata.mk ("hsaco") 0 2)])]
    [BlobInfo.mk 0 2] 0 0 [] [] []

/-- The archive `c2A2` after its kernel fetch. -/
def c2A2After : Archive :=
  Archive.mk [5, 6] .noop ["g"]
    [("k", [("g", KernelMetadata.mk ("hsaco") 0 2)])]
    [BlobInfo.mk 0 2] 0 0 [] [] [5, 6]

/-- Cache holding `c2A1` at path `p1` and `c2A2` at path `p2`, both
recorded as claiming architecture `g`. -/
def c2Cache : CacheState :=
  CacheState.mk [] [] false false [("p1", c2A1), ("p2", c2A2)]
    [("p1", ["g"]), ("p2", ["g"])]

/-- C2 counterexample: with two cached archives both claiming `g` in
effective-path order `[p1, p2]`, where `p1` lacks the kernel and `p2`
has it, the search returns ARCH_NOT_FOUND — the `KERNEL_NOT_FOUND` from
`p1` does NOT fall through to `p2` as the claim requires, because the
inner loop of `loader.cpp` (lines 376-393) breaks at the first archive
claiming the arch and a miss then advances the outer architecture
loop. -/
theorem C2_counterexample :
    archesSearch zdNone c2Cache ["p1", "p2"] ("k") [some ("g")] =
      .error .archNotFound
    ∧ kpack_get_kernel zdNone c2A1 ("k") ("g") = .error .kernelNotFound
    ∧ kpack_get_kernel zdNone c2A2 ("k") ("g") = .ok (c2A2After, [5, 6], 2) := by
  exact ⟨by decide, by decide, by decide⟩

/-- C2 witness: the amended theorem applied to the concrete cache — the
first claimant `p1` is selected, and its `KERNEL_NOT_FOUND` moves the
search past architecture `g` altogether. -/
theorem C2_witness :
    selectArchive c2Cache ["p1", "p2"] ("g") = some c2A1
    ∧ archesSearch zdNone c2Cache ["p1", "p2"] ("k") [some ("g")] =
        archesSearch zdNone c2Cache ["p1", "p2"] ("k") [] := by
  constructor
  · exact (C2_arch_first_search zdNone c2Cache ["p1", "p2"] ("k")).2.2.2.2
      [] ("p1") ["p2"] c2A1 ["g"] ("g") rfl (by simp) (by rfl) (by decide) (by rfl)
  · exact (C2_arch_first_search zdNone c2Cache ["p1", "p2"] ("k")).2.2.1
      ("g") [] c2A1 (by rfl) (by decide)

/-- C4 (amended): during the path walk of `kpack_load_code_object`, a
path whose canonical form is already cached is reused silently, a path
whose file does not exist is skipped silently — and a path whose file
exists but fails to open via `kpack_open` (a corrupt archive included)
is ALSO merely logged and skipped, leaving the cache and the valid-path
list untouched: no open error ever propagates out of the walk, whose
result type carries no error at all. -/
theorem C4_open_failures_skipped (fs : FS) (cache : CacheState)
    (valid : List String) (path : String) :
    ((assocFind cache.archives (get_canonical_path fs path)).isSome = true →
      cacheWalkStep fs (cache, valid) path =
        (cache, valid ++ [get_canonical_path fs path]))
    ∧ ((assocFind cache.archives (get_canonical_path fs path)).isSome = false →
      fs.exists_file path = false →
      cacheWalkStep fs (cache, valid) path = (cache, valid))
    ∧ (∀ e : KError,
      (assocFind cache.archives (get_canonical_path fs path)).isSome = false →
      fs.exists_file path = true →
      fs.openArchive path = .error e →
      cacheWalkStep fs (cache, valid) path = (cache, valid)) := by
  refine ⟨?_, ?_, ?_⟩
  · intro h
    simp [cacheWalkStep, h]
  · intro h1 h2
    simp [cacheWalkStep, h1, h2]
  · intro e h1 h2 h3
    simp [cacheWalkStep, h1, h2, h3]

/-- A filesystem with a single present but corrupt archive: every file
exists and every open fails with INVALID_FORMAT. -/
def c4FS : FS :=
  FS.mk (fun s => some s) (fun s => some s) (fun _ => true)
    (fun _ => .error .invalidFormat)

/-- An empty, enabled cache. -/
def c4Cache : CacheState := CacheState.mk [] [] false false [] []

/-- C4 counterexample: the embedded path resolves to a file that exists
but whose `kpack_open` fails with INVALID_FORMAT (a corrupt archive);
`kpack_load_code_object` returns ARCHIVE_NOT_FOUND — the open error is
swallowed by the `continue` at `loader.cpp` lines 324-328 instead of
propagating as the claim requires (the loop's `err` is dead after the
`continue`). -/
theorem C4_counterexample :
    c4FS.exists_file ("/bin/a.kpack") = true
    ∧ c4FS.openArchive ("/bin/a.kpack") = .error .invalidFormat
    ∧ kpack_load_code_object_core zdNone c4FS c4Cache ("k") ["a.kpack"]
        ("/bin/app") [some ("g")] = .error .archiveNotFound
    ∧ KError.archiveNotFound ≠ KError.invalidFormat := by
  exact ⟨by decide, by decide, by decide, by decide⟩

/-- Cache already holding an archive under the canonical path
`/bin/b.kpack`. -/
def c4CacheWarm : CacheState :=
  CacheState.mk [] [] false false [("/bin/b.kpack", c2A2)] [("/bin/b.kpack", ["g"])]

/-- C4 witness: the amended theorem applied to the corrupt-archive
filesystem — the open failure leaves the walk state untouched, and a
cached path is reused without touching the file. -/
theorem C4_witness :
    cacheWalkStep c4FS (c4Cache, []) ("/bin/a.kpack") = (c4Cache, [])
    ∧ cacheWalkStep c4FS (c4CacheWarm, []) ("/bin/b.kpack") =
        (c4CacheWarm, ["/bin/b.kpack"]) := by
  constructor
  · exact (C4_open_failures_skipped c4FS c4Cache [] ("/bin/a.kpack")).2.2
      .invalidFormat (by rfl) (by rfl) (by rfl)
  · exact (C4_open_failures_skipped c4FS c4CacheWarm [] ("/bin/b.kpack")).1 (by rfl)

/-- Helper: a found index of `List.findIdx?` (with accumulator `s`) lies
in `[s, s + length)`. -/
theorem findIdx?_some_bounds {α : Type} (q : α → Bool) (l : List α) :
    ∀ (s i : Nat), List.findIdx? q l s = some i → s ≤ i ∧ i < s + l.length := by
  induction l with
  | nil =>
    intro s i h
    simp [List.findIdx?] at h
  | cons a rest ih =>
    intro s i h
    rw [List.findIdx?_cons] at h
    by_cases hq : q a = true
    · simp [hq] at h
      simp [← h]
    · simp [hq] at h
      obtain ⟨a, ha, hai⟩ := h
      have := ih 0 a ha
      simp only [List.length_cons]
      omega

/-- Helper: a hit of `find_first_not_of` is a real position of the
string. -/
theorem findFirstNotOfFrom_some_lt (cs set : List Char) (st i : Nat)
    (h : findFirstNotOfFrom cs set st = some i) : i < cs.length := by
  unfold findFirstNotOfFrom at h
  cases hf : (cs.drop st).findIdx? (fun x => !set.contains x) with
  | none =>
    rw [hf] at h
    cases h
  | some j =>
    rw [hf] at h
    cases h
    have := findIdx?_some_bounds (fun x => !set.contains x) (cs.drop st) 0 j hf
    simp only [List.length_drop] at this
    omega

/-- Helper (inversion of a matched `/proc/self/maps` line): when the
loop body reaches the copy-out, the target lies at or above the line's
low address, and the pathname is non-empty and does not begin with
a bracket. -/
theorem parseLine_found_inv (t : Nat) (line p : List Char) (off lo : Nat)
    (h : parseLine t line = .found p off lo) :
    lo ≤ t ∧ p ≠ [] ∧ p.headD ' ' ≠ '[' := by
  simp only [parseLine] at h
  cases hc : parseLineFields t line with
  | none =>
    rw [hc] at h
    exact absurd h (by simp)
  | some v =>
    obtain ⟨fo, lo', pn⟩ := v
    rw [hc] at h
    have h2 : (if pn ≠ [] ∧ pn.headD ' ' = '[' then LineResult.noMatch
        else LineResult.found pn fo lo') = LineResult.found p off lo := h
    clear h
    by_cases hbr : pn ≠ [] ∧ pn.headD ' ' = '['
    · rw [if_pos hbr] at h2
      exact absurd h2 (by simp)
    · rw [if_neg hbr] at h2
      simp only [LineResult.found.injEq] at h2
      obtain ⟨hp, hoff, hlo⟩ := h2
      subst hp
      subst hoff
      subst hlo
      rw [parseLineFields] at hc
      simp only [Option.bind_eq_some, Option.some.injEq, Prod.mk.injEq] at hc
      obtain ⟨dash, hdash, low, hlow, sp, hsp, hi, hhi, hc⟩ := hc
      by_cases hr : t < low ∨ t ≥ hi
      · rw [if_pos hr] at hc
        cases hc
      · rw [if_neg hr] at hc
        simp only [Option.bind_eq_some, Option.some.injEq, Prod.mk.injEq] at hc
        obtain ⟨ns, hns, oe, hoe, de, hde, ps1, hps1, ie, hie, ps, hps, hfo, hlo2, hpn⟩ := hc
        subst hfo
        subst hlo2
        subst hpn
        have hlt := findFirstNotOfFrom_some_lt _ _ _ _ hps
        have hne : line.drop ps ≠ [] := by
          have : 0 < (line.drop ps).length := by
            simp only [List.length_drop]
            omega
          exact List.length_pos.mp this
        refine ⟨by omega, hne, ?_⟩
        intro hhead
        exact hbr ⟨hne, hhead⟩

/-- C9: `kpack_discover_binary_path` scans the lines of
`/proc/self/maps` in order; the first line whose `[lo, hi)` range
contains the target address and whose pathname is non-empty and does
not begin with a bracket wins — its pathname is copied out when the
buffer can hold it plus the terminating NUL (INVALID_ARGUMENT
otherwise), and when `offset_out` is requested it receives
`file_offset + (address - lo)` in `size_t` arithmetic; when no line
matches the result is PATH_DISCOVERY_FAILED. -/
theorem C9_discover_binary_path (t size : Nat) (offPresent : Bool) :
    (∀ (l1 : List (List Char)) (ln : List Char) (l2 : List (List Char))
      (p : List Char) (off lo : Nat),
      0 < size →
      (∀ l ∈ l1, parseLine t l = .noMatch) →
      parseLine t ln = .found p off lo →
      kpack_discover_binary_path (l1 ++ ln :: l2) t size offPresent =
        (if p.length ≥ size then .error .invalidArgument
          else .ok (p,
            if offPresent then some ((off + (t - lo)) % 2 ^ 64) else none)))
    ∧ (∀ lines : List (List Char), 0 < size →
      (∀ l ∈ lines, parseLine t l = .noMatch) →
      kpack_discover_binary_path lines t size offPresent =
        .error .pathDiscoveryFailed)
    ∧ (∀ (line p : List Char) (off lo : Nat),
      parseLine t line = .found p off lo →
      lo ≤ t ∧ p ≠ [] ∧ p.headD ' ' ≠ '[') := by
  have hsize : ∀ h0 : 0 < size, size ≠ 0 := by omega
  refine ⟨?_, ?_, ?_⟩
  · intro l1 ln l2 p off lo h0 hmiss hfound
    simp only [kpack_discover_binary_path, hsize h0, if_false]
    induction l1 with
    | nil => simp [discoverScan, hfound]
    | cons q rest ih =>
      have hq := hmiss q (List.mem_cons_self _ _)
      have hrest : ∀ l ∈ rest, parseLine t l = .noMatch :=
        fun l hl => hmiss l (List.mem_cons_of_mem _ hl)
      simpa [discoverScan, hq] using ih hrest
  · intro lines h0 hmiss
    simp only [kpack_discover_binary_path, hsize h0, if_false]
    induction lines with
    | nil => rfl
    | cons q rest ih =>
      have hq := hmiss q (List.mem_cons_self _ _)
      have hrest : ∀ l ∈ rest, parseLine t l = .noMatch :=
        fun l hl => hmiss l (List.mem_cons_of_mem _ hl)
      simpa [discoverScan, hq] using ih hrest
  · exact fun line p off lo h => parseLine_found_inv t line p off lo h

/-- A well-formed `/proc/self/maps` line mapping `[0x1000, 0x2000)` of
`/lib/foo.so` at file offset 0x10. -/
def c9Line : List Char := ("1000-2000 r-xp 0010 08:01 123 /lib/foo.so").toList

/-- C9 witness: the theorem applied to a concrete map — the address
0x1800 resolves to `/lib/foo.so` with file offset 0x10 + 0x800, and a
map of only special `[heap]`-style lines yields PATH_DISCOVERY_FAILED. -/
theorem C9_witness :
    kpack_discover_binary_path [c9Line] 6144 256 true =
      .ok (("/lib/foo.so").toList, some 2064)
    ∧ kpack_discover_binary_path [("1000-2000 r-xp 0000 08:01 123 [heap]").toList]
        6144 256 true = .error .pathDiscoveryFailed := by
  constructor
  · have h := (C9_discover_binary_path 6144 256 true).1 [] c9Line []
      (("/lib/foo.so").toList) 16 4096 (by decide) (by simp) (by decide)
    simpa using h
  · exact (C9_discover_binary_path 6144 256 true).2.1
      [("1000-2000 r-xp 0000 08:01 123 [heap]").toList] (by decide)
      (by intro l hl; simp at hl; subst hl; decide)

end KPack
